import Mathlib

/-!
Verification of `packages/fb-babel-plugin-utils/TestUtil.js`.

The library compares two source snippets structurally: it parses each one,
re-prints it in a canonical style, re-parses, strips non-semantic metadata
fields, and asserts deep structural equality, raising an error carrying a
divergence report on mismatch.  A small declarative runner maps a table of
test entries to individual outcomes.

Modelling choices:
* Babel AST values are JSON-like trees (`Node`): primitives, ordered
  key/value objects, arrays.  JavaScript objects have unique keys; the
  list representation keeps insertion order, as `for..in` does.
* The external collaborators (`@babel/parser`, `@babel/generator`,
  `babel.transformSync`, `json-diff`, the error object thrown by
  `assert.deepStrictEqual`) are abstracted as fields of a `Toolchain`
  record; the library's own logic is translated literally.
* `assert.deepStrictEqual` semantics on these tree values is the
  executable `deepStrictEqual`: order-sensitive for arrays, key-set and
  value-sensitive for objects.
* Exceptions are `Except JsError`; a thrown JS `Error` carries `message`
  and `stack`.
-/

/-- A JavaScript primitive value as it occurs in Babel AST nodes. -/
inductive Prim where
  | str : String → Prim
  | num : Int → Prim
  | bool : Bool → Prim
  | null : Prim
deriving DecidableEq, Repr

/-- A Babel AST value: a primitive, an object (ordered own enumerable
string-keyed fields), or an array. -/
inductive Node where
  | prim : Prim → Node
  | obj : List (String × Node) → Node
  | arr : List Node → Node
deriving Repr

/-- The `options` bag: the only recognized flag is `comments`. -/
structure Options where
  comments : Bool
deriving Repr

/-- `options && options.comments` — `options` itself may be absent. -/
def keepComments : Option Options → Bool
  | some o => o.comments
  | none => false

/-- The fixed exclusion list `IGNORE_KEYS` of TestUtil.js. -/
def IGNORE_KEYS : List String :=
  ["__clone", "start", "end", "raw", "rawValue", "loc", "tokens",
   "parenthesized", "parenStart"]

/-- The keys `stripMeta` deletes, as computed at its top: `IGNORE_KEYS`,
plus the comment attachments when comments are not kept. -/
def ignoreKeysFor (options : Option Options) : List String :=
  if keepComments options then IGNORE_KEYS
  else IGNORE_KEYS ++ ["leadingComments", "trailingComments"]

/-- `ignoreKeys.forEach(key => delete node[key])`: removing the listed own
properties from an object keeps the remaining fields in insertion order. -/
def deleteKeys (ks : List String) (fs : List (String × Node)) :
    List (String × Node) :=
  fs.filter (fun kv => !(ks.contains kv.1))

/-- Own-property lookup on an object's field list. -/
def lookupField (fs : List (String × Node)) (k : String) : Option Node :=
  match fs with
  | [] => none
  | kv :: rest => if kv.1 = k then some kv.2 else lookupField rest k

mutual

/-- `stripMeta(node, options)`: delete the keys of `ignoreKeysFor options`
from the node, then recurse into every remaining own-property value that
is a non-null object (objects and arrays); scalar-valued fields are not
recursed into.  The deletion and the `for..in` recursion are expressed as
one pass over the field list; `stripFields_eq_deleteKeys_map` proves this
equal to deleting first and then recursing over what remains, as the
source does. -/
def stripMeta (options : Option Options) : Node → Node
  | .prim p => .prim p
  | .obj fs => .obj (stripFields options (ignoreKeysFor options) fs)
  | .arr xs => .arr (stripList options xs)

/-- One pass over an object's own properties: a field named in `ks` was
deleted by the `forEach`; every remaining field keeps its key, and its
value is recursed into when it is an object or array (`stripMeta` is the
identity on primitives, so applying it to every kept value is the same
dispatch as the source's `typeof` test). -/
def stripFields (options : Option Options) (ks : List String) :
    List (String × Node) → List (String × Node)
  | [] => []
  | (k, v) :: rest =>
    if ks.contains k then stripFields options ks rest
    else (k, stripMeta options v) :: stripFields options ks rest

/-- The same recursion over an array's elements (arrays own none of the
deleted keys, so only the element recursion applies). -/
def stripList (options : Option Options) : List Node → List Node
  | [] => []
  | v :: rest => stripMeta options v :: stripList options rest

end

/-- `gs.all (key present in fs)` — used for the key-set check of
`deepStrictEqual` on objects. -/
def keysCovered (gs fs : List (String × Node)) : Bool :=
  gs.all (fun kv => (lookupField fs kv.1).isSome)

mutual

/-- `assert.deepStrictEqual` on tree values: primitives by value, arrays
element-by-element in order, objects by key set with structurally equal
values. -/
def deepStrictEqual : Node → Node → Bool
  | .prim a, b =>
    match b with
    | .prim c => a == c
    | _ => false
  | .obj fs, b =>
    match b with
    | .obj gs => deepEqFields fs gs && keysCovered gs fs
    | _ => false
  | .arr xs, b =>
    match b with
    | .arr ys => deepEqList xs ys
    | _ => false

/-- Every field of the first list is present in the second with a
structurally equal value. -/
def deepEqFields : List (String × Node) → List (String × Node) → Bool
  | [], _ => true
  | (k, v) :: rest, gs =>
    (match lookupField gs k with
     | some w => deepStrictEqual v w
     | none => false) && deepEqFields rest gs

/-- Order-sensitive element-wise comparison of arrays. -/
def deepEqList : List Node → List Node → Bool
  | [], ys => ys.isEmpty
  | x :: xs, ys =>
    match ys with
    | [] => false
    | y :: ys2 => deepStrictEqual x y && deepEqList xs ys2

end

mutual

/-- No object anywhere in the tree has a field named in `ks`. -/
def noIgnoredKeys (ks : List String) : Node → Bool
  | .prim _ => true
  | .obj fs => noIgnoredFields ks fs
  | .arr xs => noIgnoredList ks xs

/-- Key check plus recursion over an object's fields. -/
def noIgnoredFields (ks : List String) : List (String × Node) → Bool
  | [] => true
  | (k, v) :: rest =>
    !(ks.contains k) && noIgnoredKeys ks v && noIgnoredFields ks rest

/-- Recursion over an array's elements. -/
def noIgnoredList (ks : List String) : List Node → Bool
  | [] => true
  | x :: rest => noIgnoredKeys ks x && noIgnoredList ks rest

end

/-- The field list of an object node (other nodes own no named fields). -/
def objFields : Node → List (String × Node)
  | .obj fs => fs
  | _ => []

/-- A thrown JavaScript `Error`: a message and a stack trace. -/
structure JsError where
  message : String
  stack : String
deriving Repr, DecidableEq

/-- The `File` value returned by `babelParser.parse`; the library only
reads its `program` field. -/
structure File where
  program : Node

/-- The options record handed to `@babel/generator`: `comments`, and the
`quotes` style when one is requested. -/
structure GenOptions where
  comments : Bool
  quotes : Option String
deriving Repr, DecidableEq

/-- The result record of `@babel/generator` and `babel.transformSync`;
the library only reads its `code` field. -/
structure GenResult where
  code : String
deriving Repr, DecidableEq

/-- The external collaborators, abstracted as pure functions:
`babelParser.parse` with its fixed `{sourceType: 'module', plugins:
['flow','jsx']}` configuration (which may fail), `@babel/generator`,
`json-diff`'s `diffString`, the error object `assert.deepStrictEqual`
throws on a mismatch of the given trees, and `babel.transformSync` for a
plugin list. -/
structure Toolchain where
  parse : String → Except JsError File
  generate : File → GenOptions → String → GenResult
  diffString : Node → Node → String
  assertFailure : Node → Node → JsError
  transformSync : List String → String → Except JsError GenResult

/-- JavaScript `String.prototype.trim`: drop whitespace from both ends,
modelled on the character list. -/
def trimJS (s : String) : String :=
  (((s.toList.dropWhile Char.isWhitespace).reverse.dropWhile
    Char.isWhitespace).reverse).asString

/-- `normalizeSourceCode(sourceCode)`: parse, then re-print with
`{comments: true, quotes: 'single'}` and trim. A parse error propagates. -/
def normalizeSourceCode (tc : Toolchain) (sourceCode : String) :
    Except JsError String :=
  match tc.parse sourceCode with
  | .error err => .error err
  | .ok ast =>
    .ok (trimJS (tc.generate ast { comments := true, quotes := some "single" }
      sourceCode).code)

/-- `prettyPrint(input)`: parse, re-print with `{comments: true}` (default
quotes) and trim. -/
def prettyPrint (tc : Toolchain) (input : String) : Except JsError String :=
  match tc.parse input with
  | .error err => .error err
  | .ok ast =>
    .ok (trimJS (tc.generate ast { comments := true, quotes := none }
      input).code)

/-- The character-by-character scan of `firstCommonSubstring`, on the
character lists of the two strings. -/
def commonPrefixChars : List Char → List Char → List Char
  | a :: as, b :: bs => if a = b then a :: commonPrefixChars as bs else []
  | _, _ => []

/-- `firstCommonSubstring(left, right)`: scan from index 0 while both
strings agree, and return `left.substr(0, i)` for the first disagreeing
index `i`. -/
def firstCommonSubstring (left right : String) : String :=
  (commonPrefixChars left.toList right.toList).asString

/-- JavaScript `s.substr(start, len)` for non-negative arguments. -/
def substrJS (s : String) (start len : Nat) : String :=
  ((s.toList.drop start).take len).asString

/-- `const excerptLength = 60`. -/
def excerptLength : Nat := 60

/-- The excerpt of the expected rendering shown in the report: up to 60
characters starting right after the common prefix. -/
def excerptDiffFromExpected (expectedFormattedCode actualFormattedCode : String) :
    String :=
  substrJS expectedFormattedCode
    (firstCommonSubstring expectedFormattedCode actualFormattedCode).length
    excerptLength

/-- The excerpt of the actual rendering shown in the report. -/
def excerptDiffFromActual (expectedFormattedCode actualFormattedCode : String) :
    String :=
  substrJS actualFormattedCode
    (firstCommonSubstring expectedFormattedCode actualFormattedCode).length
    excerptLength

/-- The `errMessage` template of `assertSourceAstEqual`'s catch block. -/
def divergenceReport (tc : Toolchain)
    (expectedFormattedCode actualFormattedCode : String)
    (actualTree expectedTree : Node) : String :=
  "deepEqual node AST assert failed for the following code:\n\nExpected output: <<<"
    ++ expectedFormattedCode
    ++ ">>>\n\nActual output: <<<"
    ++ actualFormattedCode
    ++ ">>>\n\nFirst common string: <<<"
    ++ firstCommonSubstring expectedFormattedCode actualFormattedCode
    ++ ">>>\n\nThe first difference is ("
    ++ toString excerptLength
    ++ " chars max):\n\nExpected : <<<"
    ++ excerptDiffFromExpected expectedFormattedCode actualFormattedCode
    ++ ">>>\n\nActual   : <<<"
    ++ excerptDiffFromActual expectedFormattedCode actualFormattedCode
    ++ ">>>\n\nAST diff:\n====\n"
    ++ tc.diffString actualTree expectedTree
    ++ "\n====\n"

/-- `assertSourceAstEqual(expected, actual, options)`.  Each side is
normalized, re-parsed, and stripped (expected first, as in the source);
a parse error at any of these steps propagates.  If the trees are deeply
equal the call returns; otherwise the catch block pretty-prints both
original sources, assembles the divergence report, and throws a new error
whose message is the report and whose stack is the original comparison
failure's stack. -/
def assertSourceAstEqual (tc : Toolchain) (expected actual : String)
    (options : Option Options) : Except JsError Unit :=
  match normalizeSourceCode tc expected with
  | .error err => .error err
  | .ok normExpected =>
    match tc.parse normExpected with
    | .error err => .error err
    | .ok fileExpected =>
      let expectedTree := stripMeta options fileExpected.program
      match normalizeSourceCode tc actual with
      | .error err => .error err
      | .ok normActual =>
        match tc.parse normActual with
        | .error err => .error err
        | .ok fileActual =>
          let actualTree := stripMeta options fileActual.program
          if deepStrictEqual actualTree expectedTree then .ok ()
          else
            match prettyPrint tc expected with
            | .error err => .error err
            | .ok expectedFormattedCode =>
              match prettyPrint tc actual with
              | .error err => .error err
              | .ok actualFormattedCode =>
                .error
                  { message := divergenceReport tc expectedFormattedCode
                      actualFormattedCode actualTree expectedTree,
                    stack := (tc.assertFailure actualTree expectedTree).stack }

/-- The two-pass pipeline the specification describes, per side: parse the
source, re-print canonically, re-parse, strip excluded fields — i.e.
`stripMeta(parse(normalizeSourceCode(source)).program, options)`. -/
def comparedTree (tc : Toolchain) (options : Option Options)
    (source : String) : Except JsError Node :=
  match normalizeSourceCode tc source with
  | .error err => .error err
  | .ok norm =>
    match tc.parse norm with
    | .error err => .error err
    | .ok file => .ok (stripMeta options file.program)

/-- The shape of `testInfo.throws` that the dispatch chain of
`testSection` distinguishes: the literal `true`, the literal `false`, a
string, or no `throws` key at all. -/
inductive ThrowsDirective where
  | jsTrue : ThrowsDirective
  | jsFalse : ThrowsDirective
  | jsString : String → ThrowsDirective
  | missing : ThrowsDirective
deriving Repr, DecidableEq

/-- One entry of the test table.  `options` is the opaque per-entry
configuration forwarded to the transform; `output` is only read in the
no-`throws` branch. -/
structure TestInfo (α : Type) where
  input : String
  output : String
  throws : ThrowsDirective
  options : α

/-- The scan behind Jest's `toThrow(substring)` matcher: does `needle`
occur in `hay` as a contiguous substring? -/
def hasInfixChars (needle hay : List Char) : Bool :=
  needle.isPrefixOf hay ||
    match hay with
    | [] => false
    | _ :: t => hasInfixChars needle t

/-- `toThrow(substring)` passes when the raised message contains the
substring. -/
def jsContains (hay needle : String) : Bool :=
  hasInfixChars needle.toList hay.toList

/-- The body of one `it(test, ...)` registered by `testSection`, reduced
to its outcome: `true` when the test passes.  The dispatch follows the
source's chain: `throws === true` expects any raise; `typeof throws ===
'string'` expects a raise whose message contains the string; `throws ===
false` just invokes the transform and passes when it does not raise; with
no `throws` key, the transform must succeed and its result must compare
equal to `testInfo.output` via `assertSourceAstEqual` under the shared
`options`. -/
def runEntry {α : Type} (tc : Toolchain)
    (transform : String → α → Except JsError String)
    (testInfo : TestInfo α) (options : Option Options) : Bool :=
  match testInfo.throws with
  | .jsTrue =>
    match transform testInfo.input testInfo.options with
    | .error _ => true
    | .ok _ => false
  | .jsString s =>
    match transform testInfo.input testInfo.options with
    | .error e => jsContains e.message s
    | .ok _ => false
  | .jsFalse =>
    match transform testInfo.input testInfo.options with
    | .error _ => false
    | .ok _ => true
  | .missing =>
    match transform testInfo.input testInfo.options with
    | .error _ => false
    | .ok result =>
      match assertSourceAstEqual tc testInfo.output result options with
      | .ok _ => true
      | .error _ => false

/-- `testSection(testData, transform, options)`: one registered test per
table key, in table order, each reduced to its outcome. -/
def testSection {α : Type} (tc : Toolchain)
    (testData : List (String × TestInfo α))
    (transform : String → α → Except JsError String)
    (options : Option Options) : List (String × Bool) :=
  testData.map (fun kv => (kv.1, runEntry tc transform kv.2 options))

/-- `getDefaultTransformForPlugins(plugins)`: the returned closure takes
only `source` and runs `babel.transformSync(source, {plugins}).code`; the
second argument `testSection` passes at the call site is ignored. -/
def getDefaultTransformForPlugins {α : Type} (tc : Toolchain)
    (plugins : List String) : String → α → Except JsError String :=
  fun source _ignored =>
    match tc.transformSync plugins source with
    | .error err => .error err
    | .ok result => .ok result.code

/-- `testCase(name, plugins, testData, options)`: a named group wrapping
`testSection` over the default transform for `plugins`. -/
def testCase {α : Type} (tc : Toolchain) (name : String)
    (plugins : List String) (testData : List (String × TestInfo α))
    (options : Option Options) : String × List (String × Bool) :=
  (name, testSection tc testData (getDefaultTransformForPlugins tc plugins) options)

/-! ### Concrete fixtures used by the witness theorems -/

/-- A small Babel-like program node carrying a positional `start` field. -/
def nodeA : Node :=
  .obj [("type", .prim (.str "Program")), ("start", .prim (.num 0)),
    ("body", .arr [])]

/-- A structurally different program node. -/
def nodeB : Node :=
  .obj [("type", .prim (.str "Program")),
    ("body", .arr [.prim (.str "x")])]

/-- A concrete toolchain: `"!"` fails to parse, `"B"` parses to `nodeB`,
everything else parses to `nodeA`; the printer echoes the original text. -/
def tcDemo : Toolchain where
  parse := fun s =>
    if s = "!" then .error ⟨"SyntaxError: Unexpected token", "parse-stack"⟩
    else if s = "B" then .ok ⟨nodeB⟩
    else .ok ⟨nodeA⟩
  generate := fun _ast _opts sourceCode => ⟨sourceCode⟩
  diffString := fun _ _ => " body\n"
  assertFailure := fun _ _ =>
    ⟨"Expected values to be strictly deep-equal", "assert-stack"⟩
  transformSync := fun _plugins source =>
    if source = "!" then .error ⟨"unknown: boom", "transform-stack"⟩
    else .ok ⟨source⟩

/-- A table entry whose transform input fails. -/
def infoThrowsDemo : TestInfo Unit :=
  { input := "!", output := "A", throws := .jsTrue, options := () }

/-! ### Helper lemmas -/

/-- Member-wise induction principle for `Node`. -/
theorem nodeInd (motive : Node → Prop)
    (hp : ∀ p, motive (Node.prim p))
    (ho : ∀ fs, (∀ kv, kv ∈ fs → motive kv.2) → motive (Node.obj fs))
    (ha : ∀ xs, (∀ x, x ∈ xs → motive x) → motive (Node.arr xs)) :
    ∀ n, motive n
  | .prim p => hp p
  | .obj fs => ho fs (fun kv hkv => nodeInd motive hp ho ha kv.2)
  | .arr xs => ha xs (fun x hx => nodeInd motive hp ho ha x)
termination_by n => sizeOf n
decreasing_by
  · have h1 := List.sizeOf_lt_of_mem hkv
    obtain ⟨k, v⟩ := kv
    simp_wf
    simp only [Prod.mk.sizeOf_spec] at h1
    omega
  · have h1 := List.sizeOf_lt_of_mem hx
    simp_wf
    omega

theorem contains_eq_decide_mem (ks : List String) (k : String) :
    ks.contains k = decide (k ∈ ks) := by
  simp [List.contains, List.elem_eq_mem]

/-- Bridge to the source's operation order: one fused pass over the
fields equals deleting the ignored keys first and then recursing over
the remaining fields. -/
theorem stripFields_eq_deleteKeys_map (o : Option Options) (ks : List String)
    (l : List (String × Node)) :
    stripFields o ks l =
      (deleteKeys ks l).map (fun kv => (kv.1, stripMeta o kv.2)) := by
  induction l with
  | nil => simp [stripFields, deleteKeys]
  | cons kv rest ih =>
    obtain ⟨k, v⟩ := kv
    simp only [contains_eq_decide_mem] at ih
    by_cases hmem : k ∈ ks
    · simp [stripFields, deleteKeys, contains_eq_decide_mem, hmem, ih]
    · simp [stripFields, deleteKeys, contains_eq_decide_mem, hmem, ih]

theorem stripList_eq_map (o : Option Options) (l : List Node) :
    stripList o l = l.map (stripMeta o) := by
  induction l with
  | nil => simp [stripList]
  | cons v rest ih => simp [stripList, ih]

/-- Lookup after stripping: a deleted key is gone; any other key maps to
its stripped old value. -/
theorem lookupField_stripFields (o : Option Options) (ks : List String)
    (l : List (String × Node)) (k : String) :
    lookupField (stripFields o ks l) k =
      if ks.contains k then none else (lookupField l k).map (stripMeta o) := by
  induction l with
  | nil => simp [stripFields, lookupField]
  | cons kv rest ih =>
    obtain ⟨k1, v⟩ := kv
    simp only [contains_eq_decide_mem] at ih
    by_cases hmem : k1 ∈ ks
    · by_cases hk : k1 = k
      · subst hk
        simp [stripFields, lookupField, contains_eq_decide_mem, hmem, ih]
      · simp [stripFields, lookupField, contains_eq_decide_mem, hmem, hk, ih]
    · by_cases hk : k1 = k
      · subst hk
        simp [stripFields, lookupField, contains_eq_decide_mem, hmem]
      · simp [stripFields, lookupField, contains_eq_decide_mem, hmem, hk, ih]

theorem noIgnoredKeys_stripMeta (o : Option Options) (n : Node) :
    noIgnoredKeys (ignoreKeysFor o) (stripMeta o n) = true := by
  induction n using nodeInd with
  | hp p => simp [stripMeta, noIgnoredKeys]
  | ho fs ih =>
    simp only [stripMeta, noIgnoredKeys]
    induction fs with
    | nil => simp [stripFields, noIgnoredFields]
    | cons kv rest ih2 =>
      obtain ⟨k, v⟩ := kv
      have hrest := ih2 (fun kv hkv => ih kv (List.mem_cons_of_mem _ hkv))
      by_cases hmem : k ∈ ignoreKeysFor o
      · simp [stripFields, contains_eq_decide_mem, hmem, hrest]
      · have hv := ih (k, v) (List.mem_cons_self _ _)
        simp only at hv
        simp [stripFields, noIgnoredFields, contains_eq_decide_mem, hmem,
          hv, hrest]
  | ha xs ih =>
    simp only [stripMeta, noIgnoredKeys]
    induction xs with
    | nil => simp [stripList, noIgnoredList]
    | cons x rest ih2 =>
      simp only [stripList, noIgnoredList]
      have hx := ih x (List.mem_cons_self _ _)
      have hrest := ih2 (fun y hy => ih y (List.mem_cons_of_mem _ hy))
      simp [hx, hrest]

theorem stripFields_idem_of (o : Option Options) (ks : List String)
    (l : List (String × Node))
    (h : ∀ kv, kv ∈ l → stripMeta o (stripMeta o kv.2) = stripMeta o kv.2) :
    stripFields o ks (stripFields o ks l) = stripFields o ks l := by
  induction l with
  | nil => simp [stripFields]
  | cons kv rest ih =>
    obtain ⟨k, v⟩ := kv
    have hrest := ih (fun kv hkv => h kv (List.mem_cons_of_mem _ hkv))
    by_cases hmem : k ∈ ks
    · simp [stripFields, contains_eq_decide_mem, hmem, hrest]
    · have hv := h (k, v) (List.mem_cons_self _ _)
      simp only at hv
      simp [stripFields, contains_eq_decide_mem, hmem, hv, hrest]

theorem stripList_idem_of (o : Option Options) (l : List Node)
    (h : ∀ x, x ∈ l → stripMeta o (stripMeta o x) = stripMeta o x) :
    stripList o (stripList o l) = stripList o l := by
  induction l with
  | nil => simp [stripList]
  | cons x rest ih =>
    simp only [stripList]
    rw [h x (List.mem_cons_self _ _),
      ih (fun y hy => h y (List.mem_cons_of_mem _ hy))]

theorem commonPrefixChars_left (a : List Char) :
    ∀ b, ∃ t, a = commonPrefixChars a b ++ t := by
  induction a with
  | nil => intro b; exact ⟨[], by cases b <;> simp [commonPrefixChars]⟩
  | cons c as ih =>
    intro b
    cases b with
    | nil => exact ⟨c :: as, by simp [commonPrefixChars]⟩
    | cons d bs =>
      by_cases h : c = d
      · subst h
        obtain ⟨t, ht⟩ := ih bs
        exact ⟨t, by
          simpa [commonPrefixChars] using congrArg (fun l => c :: l) ht⟩
      · exact ⟨c :: as, by simp [commonPrefixChars, h]⟩

theorem commonPrefixChars_right (a : List Char) :
    ∀ b, ∃ t, b = commonPrefixChars a b ++ t := by
  induction a with
  | nil => intro b; exact ⟨b, by cases b <;> simp [commonPrefixChars]⟩
  | cons c as ih =>
    intro b
    cases b with
    | nil => exact ⟨[], by simp [commonPrefixChars]⟩
    | cons d bs =>
      by_cases h : c = d
      · subst h
        obtain ⟨t, ht⟩ := ih bs
        exact ⟨t, by
          simpa [commonPrefixChars] using congrArg (fun l => c :: l) ht⟩
      · exact ⟨d :: bs, by simp [commonPrefixChars, h]⟩

theorem commonPrefixChars_longest (p : List Char) :
    ∀ t1 t2, p.length ≤ (commonPrefixChars (p ++ t1) (p ++ t2)).length := by
  induction p with
  | nil => simp
  | cons c rest ih =>
    intro t1 t2
    simp only [List.cons_append, commonPrefixChars, if_pos, List.length_cons]
    exact Nat.succ_le_succ (ih t1 t2)

theorem toList_asString (l : List Char) : (l.asString).toList = l := rfl

theorem length_asString (l : List Char) : (l.asString).length = l.length := rfl

theorem substrJS_length_le (s : String) (start len : Nat) :
    (substrJS s start len).length ≤ len := by
  simp only [substrJS, length_asString]
  exact List.length_take_le _ _

/-! ### Claim theorems -/

/-- C9: `stripMeta` is deterministic (it is a pure function of its
arguments) and idempotent: applying it a second time with the same
options changes nothing. -/
theorem stripMeta_idempotent (o : Option Options) (n : Node) :
    stripMeta o (stripMeta o n) = stripMeta o n := by
  induction n using nodeInd with
  | hp p => simp [stripMeta]
  | ho fs ih =>
    simp only [stripMeta, Node.obj.injEq]
    exact stripFields_idem_of o (ignoreKeysFor o) fs ih
  | ha xs ih =>
    simp only [stripMeta, Node.arr.injEq]
    exact stripList_idem_of o xs ih

/-- C3: `stripMeta` deletes the fixed exclusion set of field names from
every node of the tree, uniformly and recursively: (1) no excluded key
survives anywhere in the result; (2) every `IGNORE_KEYS` entry is always
excluded; (3, 4) `leadingComments` and `trailingComments` are excluded
exactly when `options.comments` is not set; (5) every non-excluded field
of an object is retained (with its value recursively stripped). -/
theorem stripMeta_exclusion (o : Option Options) :
    (∀ n, noIgnoredKeys (ignoreKeysFor o) (stripMeta o n) = true)
    ∧ (∀ k, k ∈ IGNORE_KEYS → k ∈ ignoreKeysFor o)
    ∧ ("leadingComments" ∈ ignoreKeysFor o ↔ keepComments o = false)
    ∧ ("trailingComments" ∈ ignoreKeysFor o ↔ keepComments o = false)
    ∧ (∀ fs k, k ∉ ignoreKeysFor o →
        lookupField (objFields (stripMeta o (.obj fs))) k =
          (lookupField fs k).map (stripMeta o)) := by
  refine ⟨noIgnoredKeys_stripMeta o, ?_, ?_, ?_, ?_⟩
  · intro k hk
    by_cases hc : keepComments o <;> simp [ignoreKeysFor, hc, hk]
  · by_cases hc : keepComments o <;> simp [ignoreKeysFor, hc, IGNORE_KEYS]
  · by_cases hc : keepComments o <;> simp [ignoreKeysFor, hc, IGNORE_KEYS]
  · intro fs k hk
    simp only [stripMeta, objFields]
    rw [lookupField_stripFields]
    simp [contains_eq_decide_mem, hk]

/-- Witness for C3: on a concrete tree with `options` absent, the ignored
`start` field is gone, `start` is in the exclusion set, and the
non-excluded `type` field is retained. -/
theorem stripMeta_exclusion_witness :
    noIgnoredKeys (ignoreKeysFor none) (stripMeta none nodeA) = true
    ∧ "start" ∈ ignoreKeysFor none
    ∧ lookupField (objFields (stripMeta none nodeA)) "type" =
        some (.prim (.str "Program")) := by
  obtain ⟨h1, h2, _h3, _h4, h5⟩ := stripMeta_exclusion none
  refine ⟨h1 nodeA, h2 "start" (by decide), ?_⟩
  have h := h5 [("type", .prim (.str "Program")), ("start", .prim (.num 0)),
    ("body", .arr [])] "type" (by decide)
  simpa [nodeA] using h

/-- C5: the stripping pass recurses only into object values; a field
holding a non-object scalar whose key is not excluded is left unchanged
by `stripMeta`. -/
theorem stripMeta_preserves_scalars (o : Option Options)
    (fs : List (String × Node)) (k : String) (p : Prim)
    (hv : lookupField fs k = some (.prim p))
    (hk : k ∉ ignoreKeysFor o) :
    lookupField (objFields (stripMeta o (.obj fs))) k = some (.prim p) := by
  simp only [stripMeta, objFields]
  rw [lookupField_stripFields]
  simp [contains_eq_decide_mem, hk, hv, stripMeta]

/-- Witness for C5: with comments kept, a scalar `x` field survives
stripping untouched. -/
theorem stripMeta_preserves_scalars_witness :
    lookupField (objFields (stripMeta (some ⟨true⟩)
        (.obj [("start", .prim (.num 0)), ("x", .prim (.bool true))]))) "x" =
      some (.prim (.bool true)) :=
  stripMeta_preserves_scalars (some ⟨true⟩)
    [("start", .prim (.num 0)), ("x", .prim (.bool true))] "x" (.bool true)
    rfl (by decide)

/-- C6: `firstCommonSubstring` returns the longest common prefix of its
two arguments — it is a common prefix of both, and no common prefix is
longer; each report excerpt is taken from its pretty-printed rendering
starting at the offset equal to that prefix's length, is at most 60
characters long, and appears verbatim in the assembled divergence
report. -/
theorem firstCommonSubstring_spec (left right : String) :
    (∃ t, left.toList = (firstCommonSubstring left right).toList ++ t)
    ∧ (∃ t, right.toList = (firstCommonSubstring left right).toList ++ t)
    ∧ (∀ p t1 t2, left.toList = p ++ t1 → right.toList = p ++ t2 →
        p.length ≤ (firstCommonSubstring left right).length)
    ∧ excerptDiffFromExpected left right =
        substrJS left (firstCommonSubstring left right).length excerptLength
    ∧ (excerptDiffFromExpected left right).length ≤ 60
    ∧ excerptDiffFromActual left right =
        substrJS right (firstCommonSubstring left right).length excerptLength
    ∧ (excerptDiffFromActual left right).length ≤ 60
    ∧ (∀ (tc : Toolchain) (actualTree expectedTree : Node), ∃ pre post,
        divergenceReport tc left right actualTree expectedTree =
          pre ++ (excerptDiffFromExpected left right ++ post)) := by
  refine ⟨?_, ?_, ?_, rfl, ?_, rfl, ?_, ?_⟩
  · simp only [firstCommonSubstring, toList_asString]
    exact commonPrefixChars_left _ _
  · simp only [firstCommonSubstring, toList_asString]
    exact commonPrefixChars_right _ _
  · intro p t1 t2 h1 h2
    simp only [firstCommonSubstring, length_asString, h1, h2]
    exact commonPrefixChars_longest p t1 t2
  · exact substrJS_length_le _ _ _
  · exact substrJS_length_le _ _ _
  · intro tc actualTree expectedTree
    refine ⟨"deepEqual node AST assert failed for the following code:\n\nExpected output: <<<"
      ++ left
      ++ ">>>\n\nActual output: <<<"
      ++ right
      ++ ">>>\n\nFirst common string: <<<"
      ++ firstCommonSubstring left right
      ++ ">>>\n\nThe first difference is ("
      ++ toString excerptLength
      ++ " chars max):\n\nExpected : <<<",
      ">>>\n\nActual   : <<<"
      ++ excerptDiffFromActual left right
      ++ ">>>\n\nAST diff:\n====\n"
      ++ tc.diffString actualTree expectedTree
      ++ "\n====\n", ?_⟩
    simp only [divergenceReport, String.append_assoc]

/-- Witness for C6 on the concrete renderings "ab" and "ac": the common
prefix "a" is maximal. -/
theorem firstCommonSubstring_spec_witness :
    (['a'] : List Char).length ≤ (firstCommonSubstring "ab" "ac").length :=
  (firstCommonSubstring_spec "ab" "ac").2.2.1 ['a'] ['b'] ['c'] rfl rfl

/-- C10: the transform built by `getDefaultTransformForPlugins` depends
only on its source argument: the per-entry options `testSection` passes
are ignored, so two invocations on the same source with different
options coincide, and a table entry's outcome under the default
transform does not depend on its `options` field. -/
theorem default_transform_ignores_options {α : Type} (tc : Toolchain)
    (plugins : List String) (source : String) (o1 o2 : α) :
    (getDefaultTransformForPlugins tc plugins source o1 =
      getDefaultTransformForPlugins tc plugins source o2)
    ∧ ∀ (input output : String) (th : ThrowsDirective)
        (options : Option Options),
        runEntry tc (getDefaultTransformForPlugins tc plugins)
          { input := input, output := output, throws := th,
            options := o1 } options =
        runEntry tc (getDefaultTransformForPlugins tc plugins)
          { input := input, output := output, throws := th,
            options := o2 } options := by
  refine ⟨rfl, ?_⟩
  intro input output th options
  cases th <;> rfl

/-- C2: the dispatch of `testSection` per table entry, in the source's
priority order: `throws === true` passes iff the transform raises;
`throws` a string passes iff the raised message contains it; `throws ===
false` passes iff the transform does not raise, with no output
comparison; no `throws` key requires the transform to succeed and its
result to compare equal to `output` via `assertSourceAstEqual` under the
shared options. -/
theorem runEntry_dispatch {α : Type} (tc : Toolchain)
    (transform : String → α → Except JsError String)
    (testInfo : TestInfo α) (options : Option Options) :
    (testInfo.throws = .jsTrue →
      (runEntry tc transform testInfo options = true ↔
        ∃ e, transform testInfo.input testInfo.options = .error e))
    ∧ (∀ s, testInfo.throws = .jsString s →
      (runEntry tc transform testInfo options = true ↔
        ∃ e, transform testInfo.input testInfo.options = .error e ∧
          jsContains e.message s = true))
    ∧ (testInfo.throws = .jsFalse →
      (runEntry tc transform testInfo options = true ↔
        ∃ r, transform testInfo.input testInfo.options = .ok r))
    ∧ (testInfo.throws = .missing →
      (runEntry tc transform testInfo options = true ↔
        ∃ r, transform testInfo.input testInfo.options = .ok r ∧
          assertSourceAstEqual tc testInfo.output r options = .ok ())) := by
  refine ⟨?_, ?_, ?_, ?_⟩
  · intro hth
    simp only [runEntry, hth]
    cases htr : transform testInfo.input testInfo.options <;> simp [htr]
  · intro s hth
    simp only [runEntry, hth]
    cases htr : transform testInfo.input testInfo.options <;> simp [htr]
  · intro hth
    simp only [runEntry, hth]
    cases htr : transform testInfo.input testInfo.options <;> simp [htr]
  · intro hth
    simp only [runEntry, hth]
    cases htr : transform testInfo.input testInfo.options with
    | error e => simp [htr]
    | ok r =>
      cases ha : assertSourceAstEqual tc testInfo.output r options with
      | ok u => cases u; simp [htr, ha]
      | error e => simp [htr, ha]

/-- Witness for C2: the entry with `throws: true` and a failing input
passes exactly because the default transform raises on it. -/
theorem runEntry_dispatch_witness :
    runEntry tcDemo (getDefaultTransformForPlugins tcDemo [])
        infoThrowsDemo none = true ↔
      ∃ e, getDefaultTransformForPlugins tcDemo ([] : List String)
        infoThrowsDemo.input infoThrowsDemo.options = .error e :=
  (runEntry_dispatch tcDemo (getDefaultTransformForPlugins tcDemo [])
    infoThrowsDemo none).1 rfl

/-- On a mismatch, `assertSourceAstEqual` pretty-prints both original
sources and throws the assembled report with the original assert
failure's stack (shared backbone for the comparator claims). -/
theorem assertSourceAstEqual_mismatch_aux (tc : Toolchain)
    (options : Option Options) (expected actual ne na : String) (fe fa : File)
    (hne : normalizeSourceCode tc expected = .ok ne)
    (hfe : tc.parse ne = .ok fe)
    (hna : normalizeSourceCode tc actual = .ok na)
    (hfa : tc.parse na = .ok fa)
    (hd : deepStrictEqual (stripMeta options fa.program)
      (stripMeta options fe.program) = false) :
    ∃ pe pa, prettyPrint tc expected = .ok pe ∧
      prettyPrint tc actual = .ok pa ∧
      assertSourceAstEqual tc expected actual options =
        .error ⟨divergenceReport tc pe pa (stripMeta options fa.program)
            (stripMeta options fe.program),
          (tc.assertFailure (stripMeta options fa.program)
            (stripMeta options fe.program)).stack⟩ := by
  have hpe : ∃ f, tc.parse expected = .ok f := by
    cases hp : tc.parse expected with
    | error e => simp [normalizeSourceCode, hp] at hne
    | ok f => exact ⟨f, rfl⟩
  have hpa : ∃ f, tc.parse actual = .ok f := by
    cases hp : tc.parse actual with
    | error e => simp [normalizeSourceCode, hp] at hna
    | ok f => exact ⟨f, rfl⟩
  obtain ⟨f1, hf1⟩ := hpe
  obtain ⟨f2, hf2⟩ := hpa
  refine ⟨trimJS (tc.generate f1 { comments := true, quotes := none }
      expected).code,
    trimJS (tc.generate f2 { comments := true, quotes := none } actual).code,
    ?_, ?_, ?_⟩
  · simp [prettyPrint, hf1]
  · simp [prettyPrint, hf2]
  · simp [assertSourceAstEqual, hne, hfe, hna, hfa, hd, prettyPrint, hf1, hf2]

/-- C1: `assertSourceAstEqual` pushes both sources through the same
normalize–reparse–strip pipeline with the same options; given that both
pipelines parse, it returns without raising iff the two stripped trees
are deeply structurally equal, and on any difference it raises an error
whose message is the assembled divergence report. -/
theorem assertSourceAstEqual_ok_iff (tc : Toolchain)
    (options : Option Options) (expected actual ne na : String) (fe fa : File)
    (hne : normalizeSourceCode tc expected = .ok ne)
    (hfe : tc.parse ne = .ok fe)
    (hna : normalizeSourceCode tc actual = .ok na)
    (hfa : tc.parse na = .ok fa) :
    (assertSourceAstEqual tc expected actual options = .ok () ↔
      deepStrictEqual (stripMeta options fa.program)
        (stripMeta options fe.program) = true)
    ∧ (deepStrictEqual (stripMeta options fa.program)
        (stripMeta options fe.program) = false →
      ∃ pe pa, prettyPrint tc expected = .ok pe ∧
        prettyPrint tc actual = .ok pa ∧
        assertSourceAstEqual tc expected actual options =
          .error ⟨divergenceReport tc pe pa (stripMeta options fa.program)
              (stripMeta options fe.program),
            (tc.assertFailure (stripMeta options fa.program)
              (stripMeta options fe.program)).stack⟩) := by
  constructor
  · by_cases hd : deepStrictEqual (stripMeta options fa.program)
        (stripMeta options fe.program)
    · constructor
      · intro _; exact hd
      · intro _
        simp [assertSourceAstEqual, hne, hfe, hna, hfa, hd]
    · have hdf : deepStrictEqual (stripMeta options fa.program)
          (stripMeta options fe.program) = false := by
        simpa using hd
      obtain ⟨pe, pa, _h1, _h2, h3⟩ := assertSourceAstEqual_mismatch_aux tc
        options expected actual ne na fe fa hne hfe hna hfa hdf
      constructor
      · intro hok
        rw [h3] at hok
        exact absurd hok (by simp)
      · intro htrue
        exact absurd htrue hd
  · intro hdf
    exact assertSourceAstEqual_mismatch_aux tc options expected actual
      ne na fe fa hne hfe hna hfa hdf

/-- Witness for C1: comparing the source "A" with itself under the demo
toolchain succeeds exactly because the stripped trees are deeply equal. -/
theorem assertSourceAstEqual_ok_iff_witness :
    assertSourceAstEqual tcDemo "A" "A" none = .ok () ↔
      deepStrictEqual (stripMeta none nodeA) (stripMeta none nodeA) = true :=
  (assertSourceAstEqual_ok_iff tcDemo none "A" "A" "A" "A"
    ⟨nodeA⟩ ⟨nodeA⟩ rfl rfl rfl rfl).1

/-- C4: the tree compared on each side is produced by the two-pass
pipeline `stripMeta(parse(normalizeSourceCode(source)).program)`
(`comparedTree`): the assertion succeeds exactly when both pipelines
succeed and their resulting trees are deeply equal. -/
theorem assertSourceAstEqual_pipeline (tc : Toolchain)
    (options : Option Options) (expected actual : String) :
    assertSourceAstEqual tc expected actual options = .ok () ↔
      ∃ te ta, comparedTree tc options expected = .ok te ∧
        comparedTree tc options actual = .ok ta ∧
        deepStrictEqual ta te = true := by
  simp only [assertSourceAstEqual, comparedTree]
  cases h1 : normalizeSourceCode tc expected with
  | error e => simp [h1]
  | ok ne =>
    cases h2 : tc.parse ne with
    | error e => simp [h1, h2]
    | ok fe =>
      cases h3 : normalizeSourceCode tc actual with
      | error e => simp [h1, h2, h3]
      | ok na =>
        cases h4 : tc.parse na with
        | error e => simp [h1, h2, h3, h4]
        | ok fa =>
          by_cases hd : deepStrictEqual (stripMeta options fa.program)
              (stripMeta options fe.program)
          · simp [h1, h2, h3, h4, hd]
          · cases h5 : prettyPrint tc expected with
            | error e => simp [h1, h2, h3, h4, hd, h5]
            | ok pe =>
              cases h6 : prettyPrint tc actual with
              | error e => simp [h1, h2, h3, h4, hd, h5, h6]
              | ok pa => simp [h1, h2, h3, h4, hd, h5, h6]

/-- C7: when the deep comparison fails, the error thrown is a new error
whose message is the assembled divergence report and whose stack is
exactly the stack of the original low-level comparison failure. -/
theorem mismatch_error_preserves_stack (tc : Toolchain)
    (options : Option Options) (expected actual ne na : String) (fe fa : File)
    (hne : normalizeSourceCode tc expected = .ok ne)
    (hfe : tc.parse ne = .ok fe)
    (hna : normalizeSourceCode tc actual = .ok na)
    (hfa : tc.parse na = .ok fa)
    (hd : deepStrictEqual (stripMeta options fa.program)
      (stripMeta options fe.program) = false) :
    ∃ pe pa err, prettyPrint tc expected = .ok pe ∧
      prettyPrint tc actual = .ok pa ∧
      assertSourceAstEqual tc expected actual options = .error err ∧
      err.message = divergenceReport tc pe pa (stripMeta options fa.program)
        (stripMeta options fe.program) ∧
      err.stack = (tc.assertFailure (stripMeta options fa.program)
        (stripMeta options fe.program)).stack := by
  obtain ⟨pe, pa, h1, h2, h3⟩ := assertSourceAstEqual_mismatch_aux tc options
    expected actual ne na fe fa hne hfe hna hfa hd
  exact ⟨pe, pa, _, h1, h2, h3, rfl, rfl⟩

/-- Witness for C7: comparing "A" against "B" under the demo toolchain
fails and re-raises with the demo assert failure's stack. -/
theorem mismatch_error_preserves_stack_witness :
    ∃ pe pa err, prettyPrint tcDemo "A" = .ok pe ∧
      prettyPrint tcDemo "B" = .ok pa ∧
      assertSourceAstEqual tcDemo "A" "B" none = .error err ∧
      err.message = divergenceReport tcDemo pe pa (stripMeta none nodeB)
        (stripMeta none nodeA) ∧
      err.stack = (tcDemo.assertFailure (stripMeta none nodeB)
        (stripMeta none nodeA)).stack :=
  mismatch_error_preserves_stack tcDemo none "A" "B" "A" "B"
    ⟨nodeA⟩ ⟨nodeB⟩ rfl rfl rfl rfl rfl

/-- C8: a parse failure on either input of `assertSourceAstEqual`
propagates to the caller unmodified — it is not recovered from and not
wrapped into a divergence report. -/
theorem parse_error_propagates (tc : Toolchain) (options : Option Options)
    (expected actual : String) (err : JsError) :
    (tc.parse expected = .error err →
      assertSourceAstEqual tc expected actual options = .error err)
    ∧ (∀ ne fe, normalizeSourceCode tc expected = .ok ne →
        tc.parse ne = .ok fe → tc.parse actual = .error err →
        assertSourceAstEqual tc expected actual options = .error err) := by
  constructor
  · intro hp
    have h1 : normalizeSourceCode tc expected = .error err := by
      simp [normalizeSourceCode, hp]
    simp [assertSourceAstEqual, h1]
  · intro ne fe hne hfe hp
    have h3 : normalizeSourceCode tc actual = .error err := by
      simp [normalizeSourceCode, hp]
    simp [assertSourceAstEqual, hne, hfe, h3]

/-- Witness for C8: the unparseable source "!" makes the demo parse error
surface verbatim from `assertSourceAstEqual`. -/
theorem parse_error_propagates_witness :
    assertSourceAstEqual tcDemo "!" "A" none =
      .error ⟨"SyntaxError: Unexpected token", "parse-stack"⟩ :=
  (parse_error_propagates tcDemo none "!" "A"
    ⟨"SyntaxError: Unexpected token", "parse-stack"⟩).1 rfl
